import Mathlib

/-!
Verification of the data-pipeline script `download_data.py` of the
`ua-2022-map` repository.  The script normalizes OSM tag mappings into
display properties, splits the resulting GeoJSON feature collection into
named layers, and persists each collection as compact JSON.

Python dictionaries are embedded as association lists (`Dict α`) whose
lookup takes the first matching key; Python's `d[k] = v` assignment is
`dset`, which replaces the value in place when the key is present and
appends otherwise, exactly mirroring insertion-order semantics.
Fallible Python code (raising `KeyError` / `AttributeError` /
`ValueError`) is embedded with `Option`, `none` standing for a raised
exception.
-/

/-- Python `dict` with string keys, as an insertion-ordered association list. -/
abbrev Dict (α : Type) := List (String × α)

/-- Python `d.get(k)` / `d[k]`: the value at the first occurrence of key `k`. -/
def dget {α : Type} : Dict α → String → Option α
  | [], _ => none
  | (k', v) :: d, k => if k' = k then some v else dget d k

/-- Python `k in d`. -/
def hasKey {α : Type} : Dict α → String → Bool
  | [], _ => false
  | (k', _) :: d, k => k' == k || hasKey d k

/-- Python `d.get(k, dflt)`. -/
def dgetD {α : Type} (d : Dict α) (k : String) (dflt : α) : α :=
  (dget d k).getD dflt

/-- Python `d[k] = v`: replace the value in place when the key exists
(keeping its position in iteration order), append at the end otherwise.
Association lists with duplicate keys never arise from a Python dict, so
acting on the first occurrence is exact. -/
def dset {α : Type} : Dict α → String → α → Dict α
  | [], k, v => [(k, v)]
  | (k', w) :: d, k, v => if k' = k then (k, v) :: d else (k', w) :: dset d k v

/-- Truthiness of a Python optional string: `None` and `""` are falsy. -/
def truthy : Option String → Bool
  | none => false
  | some s => !(s == "")

/-- String `s` starts with `p` (the semantics of `re.match("^p.*", s)`
for a literal `p`). -/
def strStarts (s p : String) : Bool := p.data.isPrefixOf s.data

/-- String `s` ends with `p`, compared on character lists. -/
def strEnds (s p : String) : Bool := p.data.isSuffixOf s.data

/-- The string contains a newline character. -/
def hasNL (s : String) : Bool := s.data.any (fun c => c.toNat = 10)

/-- Semantics of `re.match("^.*phone$", tag)` (no `re.MULTILINE`):
`.*` cannot cross a newline and `$` matches at the end of the string or
just before a single trailing newline.  Hence the pattern matches exactly
the newline-free strings ending in `"phone"`, plus those whose only
newline is a single trailing one right after `"phone"`. -/
def phoneRegexMatch (tag : String) : Bool :=
  (!hasNL tag && strEnds tag "phone")
    || (strEnds tag ("phone" ++ String.singleton (Char.ofNat 10))
        && !(tag.data.dropLast.any (fun c => c.toNat = 10)))

/-- Translation of `keep_key` (src/download_data.py lines 92-103): a tag
key is kept when it matches none of the five anchored patterns
`^name.*`, `^source.*`, `^ref.*`, `^.*phone$`, `^addr:.*`. -/
def keep_key (tag : String) : Bool :=
  !(strStarts tag "name" || strStarts tag "source" || strStarts tag "ref"
    || phoneRegexMatch tag || strStarts tag "addr:")

/-- Translation of `coalesce` (lines 80-84): first truthy argument, else `""`. -/
def coalesce : List (Option String) → String
  | [] => ""
  | none :: rest => coalesce rest
  | some s :: rest => if s == "" then coalesce rest else s

/-- Python's `separator.join(parts)`. -/
def joinSep (sep : String) : List String → String
  | [] => ""
  | [s] => s
  | s :: rest => s ++ sep ++ joinSep sep rest

/-- Translation of `concatenate_tags` (lines 87-89): drop falsy arguments
(`None` and `""`), join the rest with the separator. -/
def concatenate_tags (tags : List (Option String)) (separator : String) : String :=
  joinSep separator ((tags.filterMap id).filter (fun s => !(s == "")))

/-- The street fragment of the address computation (line 118):
`p.get("addr:street", "") + " " if p.get("addr:street", "") else ""`. -/
def streetPart (p : Dict String) : String :=
  if truthy (dget p "addr:street") then (dget p "addr:street").getD "" ++ " " else ""

/-- The address value of lines 116-120:
`coalesce(p.get("addr:city"), p.get("addr:place")) + " " + streetPart + p.get("addr:housenumber")`. -/
def addressString (p : Dict String) : String :=
  coalesce [dget p "addr:city", dget p "addr:place"] ++ " " ++ streetPart p
    ++ (dget p "addr:housenumber").getD ""

/-- The conditional address step of lines 115-120: only a truthy
`addr:housenumber` tag triggers the `address` assignment. -/
def addAddress (p : Dict String) (results : Dict String) : Dict String :=
  if truthy (dget p "addr:housenumber") then dset results "address" (addressString p)
  else results

/-- The body of `process_feature_properties` (lines 109-124) acting on the
`tags` dictionary `p`: filter by `keep_key`, then assign the four name
fields, the conditional `address`, and `phone`, in source order. -/
def processTags (p : Dict String) : Dict String :=
  dset
    (addAddress p
      (dset
        (dset
          (dset
            (dset (p.filter (fun kv => keep_key kv.1))
              "name:pl" (coalesce [dget p "name:pl", dget p "name"]))
            "name:uk" (coalesce [dget p "name:uk", dget p "name:ua", dget p "name"]))
          "name:en" (coalesce [dget p "name:en", dget p "name"]))
        "name:ru" (coalesce [dget p "name:ru", dget p "name"])))
    "phone" (concatenate_tags [dget p "phone", dget p "contact:phone"] ";")

/-- A value stored in a raw Feature's `properties` dictionary: either the
`tags` sub-dictionary of string-valued tags, or some other scalar. -/
inductive PropVal where
  | vstr (s : String)
  | vtags (t : Dict String)
deriving DecidableEq

/-- The raw `properties` dictionary of a Feature produced by the
conversion stage. -/
abbrev RawProps := Dict PropVal

/-- Translation of `process_feature_properties` (lines 106-124):
`properties["tags"]` raises `KeyError` when the key is absent (and
`AttributeError` when its value is not a dictionary); both raises are
embedded as `none`. -/
def process_feature_properties (properties : RawProps) : Option (Dict String) :=
  match dget properties "tags" with
  | some (PropVal.vtags p) => some (processTags p)
  | _ => none

/-- A value stored at a top-level key of a raw Feature dictionary:
a scalar, a `properties`-style dictionary, or an opaque geometry of
type `γ` (geometry is passed through unmodified, so it stays abstract). -/
inductive FeatVal (γ : Type) where
  | vstr (s : String)
  | vprops (p : RawProps)
  | vgeom (g : γ)
deriving DecidableEq

/-- A raw Feature as produced by the conversion stage: a dictionary that
should hold `"type"`, `"properties"` and `"geometry"` keys (and possibly
others, such as an id). -/
abbrev RawFeature (γ : Type) := Dict (FeatVal γ)

/-- A value stored at a top-level key of a processed Feature: the literal
`"Feature"` type string, the flat normalized properties, or the geometry
value passed through from the input. -/
inductive OutVal (γ : Type) where
  | vstr (s : String)
  | vprops (p : Dict String)
  | vgeom (g : FeatVal γ)
deriving DecidableEq

/-- A processed Feature: the dictionary literal built at lines 131-135. -/
abbrev OutFeature (γ : Type) := Dict (OutVal γ)

/-- The raw FeatureCollection handed to `process_geojson`; only its
`features` list is read (line 136). -/
structure RawCollection (γ : Type) where
  features : List (RawFeature γ)
deriving DecidableEq

/-- A FeatureCollection dictionary as built at lines 128-138 and 209-212:
a `"type"` string and a list of features. -/
structure FC (γ : Type) where
  fctype : String
  features : List (OutFeature γ)
deriving DecidableEq

/-- One element of the comprehension of lines 130-137: look up
`feature["properties"]` (KeyError / non-dict TypeError when it is not a
properties dictionary), normalize it, look up `feature["geometry"]`, and
build the three-key output dictionary in literal order. -/
def processFeature {γ : Type} (feature : RawFeature γ) : Option (OutFeature γ) :=
  match dget feature "properties" with
  | some (FeatVal.vprops pr) =>
    match process_feature_properties pr with
    | some newProps =>
      match dget feature "geometry" with
      | some g =>
        some [("type", OutVal.vstr "Feature"), ("properties", OutVal.vprops newProps),
              ("geometry", OutVal.vgeom g)]
      | none => none
    | none => none
  | _ => none

/-- A Python list comprehension `[φ a for a in l]` over a fallible body:
left to right, the first raised exception aborts the whole list. -/
def optionMapAll {α β : Type} (φ : α → Option β) : List α → Option (List β)
  | [] => some []
  | a :: l =>
    match φ a, optionMapAll φ l with
    | some b, some bs => some (b :: bs)
    | _, _ => none

/-- Translation of `process_geojson` (lines 127-138). -/
def process_geojson {γ : Type} (data : RawCollection γ) : Option (FC γ) :=
  match optionMapAll processFeature data.features with
  | some fs => some (FC.mk "FeatureCollection" fs)
  | none => none

/-- The `routers` table of `split_geojson` (lines 142-199): nine named
boolean predicates over a normalized properties dictionary, each written
`True if cond else False` in the source, with `p.get(key, "")` lookups. -/
def routers : List (String × (Dict String → Bool)) :=
  [("reception_points", fun p =>
      dgetD p "social_facility:for" "" == "refugee"
        || dgetD p "social_facility:for" "" == "refugees"),
   ("information_points", fun p =>
      dgetD p "information:for" "" == "refugee"
        || dgetD p "information:for" "" == "refugees"),
   ("blood_donation_points", fun p => dgetD p "healthcare" "" == "blood_donation"),
   ("social_facilities", fun p =>
      dgetD p "social_facility" "" == "food_bank"
        || dgetD p "social_facility" "" == "soup_kitchen"),
   ("pharmacies", fun p => dgetD p "amenity" "" == "pharmacy"),
   ("hospitals", fun p => dgetD p "amenity" "" == "hospital"),
   ("consulates", fun p =>
      dgetD p "office" "" == "diplomatic" && dgetD p "country" "" == "UA"),
   ("train_stations", fun p => dgetD p "building" "" == "train_station"),
   ("bus_stations", fun p => dgetD p "amenity" "" == "bus_station")]

/-- The predicate registered in `routers` under a layer name (`false` for
a name that is not in the table). -/
def routerTest (name : String) (p : Dict String) : Bool :=
  match dget routers name with
  | some t => t p
  | none => false

/-- The `feature["properties"]` lookup performed by each predicate call at
line 205: `none` embeds the KeyError / AttributeError raised when the
feature has no properties dictionary. -/
def featureProps {γ : Type} (f : OutFeature γ) : Option (Dict String) :=
  match dget f "properties" with
  | some (OutVal.vprops p) => some p
  | _ => none

/-- The body of the inner loop of lines 204-212 for a single router entry:
when the predicate accepts the properties, append the feature to the
layer's list (`results.get(layer_name)` is truthy exactly when the layer
dictionary exists) or create the layer's FeatureCollection. -/
def routerStep {γ : Type} (f : OutFeature γ) (p : Dict String)
    (res : Dict (FC γ)) (r : String × (Dict String → Bool)) : Dict (FC γ) :=
  if r.2 p then
    match dget res r.1 with
    | some fc => dset res r.1 (FC.mk fc.fctype (fc.features ++ [f]))
    | none => dset res r.1 (FC.mk "FeatureCollection" [f])
  else res

/-- The inner loop of lines 204-212 over the whole router table. -/
def addFeature {γ : Type} (res : Dict (FC γ)) (f : OutFeature γ)
    (p : Dict String) : Dict (FC γ) :=
  routers.foldl (routerStep f p) res

/-- The outer loop of lines 203-212: features in input order; a feature
without a properties dictionary raises inside the first predicate call. -/
def splitLoop {γ : Type} : List (OutFeature γ) → Dict (FC γ) → Option (Dict (FC γ))
  | [], res => some res
  | f :: fs, res =>
    match featureProps f with
    | some p => splitLoop fs (addFeature res f p)
    | none => none

/-- Translation of `split_geojson` (lines 141-218), starting from the
empty `results` dictionary of line 200. -/
def split_geojson {γ : Type} (geojson : FC γ) : Option (Dict (FC γ)) :=
  splitLoop geojson.features []

/-- An observable side effect of the pipeline process, at the granularity
the entry-point claims need: error logging, the outbound Overpass POST,
and file writes. -/
inductive Effect where
  | logError (msg : String)
  | netPost (url : String)
  | fileWrite (path : String)
deriving DecidableEq

/-- The fixed Overpass endpoint (line 17). -/
def overpass_api_url : String := "https://lz4.overpass-api.de/api/interpreter"

/-- Side effects of `query_overpass_api` (lines 62-70): one POST. -/
def query_overpass_effects : List Effect := [Effect.netPost overpass_api_url]

/-- Side effects of `save_json` (lines 73-77): one file write. -/
def save_json_effects (path : String) : List Effect := [Effect.fileWrite path]

/-- Python's `Path.joinpath`. -/
def joinPath (dir name : String) : String := dir ++ "/" ++ name

/-- Side-effect trace of `main` (lines 221-228), parametrized by the layer
names produced by the split: the query, the full-dataset write, then one
write per layer, in order. -/
def main_effects (outputDir : String) (layerNames : List String) : List Effect :=
  query_overpass_effects ++ save_json_effects (joinPath outputDir "osm_data.geojson")
    ++ layerNames.map (fun n => Effect.fileWrite (joinPath outputDir (n ++ ".geojson")))

/-- The `__main__` block (lines 231-240): when `output_dir.is_dir()` is
false, log an error and `sys.exit(1)` (exit code `some 1`) without running
`main`; otherwise run `main` (the gate itself does not abort, `none`). -/
def entry_main (pathIsDir : Bool) (outputDir : String)
    (layerNames : List String) : List Effect × Option Nat :=
  if pathIsDir then (main_effects outputDir layerNames, none)
  else ([Effect.logError ("Given path: \"" ++ outputDir ++ "\" is not a directory.")], some 1)

/-- A Python float as far as `json.dump` distinguishes: a finite number
with its textual representation, or one of the non-finite values that
`allow_nan=False` rejects. -/
inductive PyNum where
  | finite (txt : String)
  | nan
  | inf
  | ninf
deriving DecidableEq

mutual
/-- A Python value serializable by `json.dump`. -/
inductive PyVal where
  | pstr (s : String)
  | pnum (n : PyNum)
  | pbool (b : Bool)
  | pnull
  | parr (xs : PyList)
  | pobj (xs : PyObj)
/-- A Python list of serializable values. -/
inductive PyList where
  | nil
  | cons (hd : PyVal) (tl : PyList)
/-- A Python dictionary with string keys, in iteration order. -/
inductive PyObj where
  | nil
  | cons (k : String) (v : PyVal) (tl : PyObj)
end

/-- The sixteen lowercase hexadecimal digits. -/
def hexDigitChars : List Char := "0123456789abcdef".data

/-- The lowercase hexadecimal digit of `n % 16`. -/
def hexDigit (n : Nat) : Char := hexDigitChars.getD (n % 16) '0'

/-- Four-digit lowercase hexadecimal rendering of `n % 65536`. -/
def hex4 (n : Nat) : String :=
  String.mk [hexDigit (n / 4096 % 16), hexDigit (n / 256 % 16),
             hexDigit (n / 16 % 16), hexDigit (n % 16)]

/-- The `\uXXXX` escape produced by `ensure_ascii`, with a surrogate pair
for code points beyond the basic multilingual plane. -/
def encodeUni (n : Nat) : String :=
  if n < 65536 then "\\u" ++ hex4 n
  else
    "\\u" ++ hex4 (55296 + (n - 65536) / 1024) ++ "\\u" ++ hex4 (56320 + (n - 65536) % 1024)

/-- Escaping of a single character by `json.dump`'s default ASCII encoder:
`"` and `\` get backslash escapes, the five short control escapes apply,
other printable ASCII (0x20-0x7e) passes through, everything else becomes
a `\uXXXX` escape. -/
def escapeChar (c : Char) : String :=
  if c.toNat = 34 then "\\\""
  else if c.toNat = 92 then "\\\\"
  else if c.toNat = 10 then "\\n"
  else if c.toNat = 13 then "\\r"
  else if c.toNat = 9 then "\\t"
  else if c.toNat = 8 then "\\b"
  else if c.toNat = 12 then "\\f"
  else if 32 ≤ c.toNat && c.toNat ≤ 126 then String.singleton c
  else encodeUni c.toNat

/-- Concatenation of a list of strings. -/
def concatAll : List String → String
  | [] => ""
  | s :: rest => s ++ concatAll rest

/-- The body of a serialized JSON string. -/
def escapeString (s : String) : String := concatAll (s.data.map escapeChar)

/-- A serialized JSON string with its quotes. -/
def renderStr (s : String) : String := "\"" ++ escapeString s ++ "\""

/-- Serialization of a number under `allow_nan=False`: a non-finite value
raises `ValueError` (embedded as `none`). -/
def renderNum : PyNum → Option String
  | PyNum.finite txt => some txt
  | _ => none

mutual
/-- `json.dump(v, f, allow_nan=False, separators=(",", ":"))`, as the text
written on success; `none` embeds the raised `ValueError`. -/
def dumpVal : PyVal → Option String
  | PyVal.pstr s => some (renderStr s)
  | PyVal.pnum n => renderNum n
  | PyVal.pbool b => some (if b then "true" else "false")
  | PyVal.pnull => some "null"
  | PyVal.parr xs =>
    match dumpList xs with
    | some ss => some ("[" ++ joinSep "," ss ++ "]")
    | none => none
  | PyVal.pobj xs =>
    match dumpObj xs with
    | some ss => some ("\x7b" ++ joinSep "," ss ++ "\x7d")
    | none => none
/-- Serialized elements of a list, in order. -/
def dumpList : PyList → Option (List String)
  | PyList.nil => some []
  | PyList.cons v tl =>
    match dumpVal v, dumpList tl with
    | some s, some ss => some (s :: ss)
    | _, _ => none
/-- Serialized `key:value` entries of a dictionary, in iteration order
(the `":"` key separator of the `separators` argument). -/
def dumpObj : PyObj → Option (List String)
  | PyObj.nil => some []
  | PyObj.cons k v tl =>
    match dumpVal v, dumpObj tl with
    | some s, some ss => some ((renderStr k ++ ":" ++ s) :: ss)
    | _, _ => none
end

/-- Translation of `save_json` (lines 73-77): the text written to the
file, or `none` when serialization raises (in which case nothing is
written, since `json.dump` with compact separators emits no output before
validating the first offending float). -/
def save_json (data : PyVal) : Option String := dumpVal data

mutual
/-- The value contains a NaN or infinite float somewhere. -/
def hasNFVal : PyVal → Bool
  | PyVal.pnum (PyNum.finite _) => false
  | PyVal.pnum _ => true
  | PyVal.pstr _ => false
  | PyVal.pbool _ => false
  | PyVal.pnull => false
  | PyVal.parr xs => hasNFList xs
  | PyVal.pobj xs => hasNFObj xs
/-- Some element contains a non-finite float. -/
def hasNFList : PyList → Bool
  | PyList.nil => false
  | PyList.cons v tl => hasNFVal v || hasNFList tl
/-- Some entry contains a non-finite float. -/
def hasNFObj : PyObj → Bool
  | PyObj.nil => false
  | PyObj.cons _ v tl => hasNFVal v || hasNFObj tl
end

/-- The character is JSON-relevant whitespace. -/
def wsChar (c : Char) : Bool :=
  c.toNat = 32 || c.toNat = 9 || c.toNat = 10 || c.toNat = 13

/-- The string contains no whitespace character. -/
def wsFreeStr (s : String) : Bool := s.data.all (fun c => !wsChar c)

mutual
/-- Every string leaf, dictionary key and finite-number text of the value
is free of whitespace. -/
def wsFreeVal : PyVal → Bool
  | PyVal.pstr s => wsFreeStr s
  | PyVal.pnum (PyNum.finite txt) => wsFreeStr txt
  | PyVal.pnum _ => true
  | PyVal.pbool _ => true
  | PyVal.pnull => true
  | PyVal.parr xs => wsFreeList xs
  | PyVal.pobj xs => wsFreeObj xs
/-- Whitespace-freedom for every element. -/
def wsFreeList : PyList → Bool
  | PyList.nil => true
  | PyList.cons v tl => wsFreeVal v && wsFreeList tl
/-- Whitespace-freedom for every key and value. -/
def wsFreeObj : PyObj → Bool
  | PyObj.nil => true
  | PyObj.cons k v tl => wsFreeStr k && wsFreeVal v && wsFreeObj tl
end

theorem hasKey_eq_isSome {α : Type} (d : Dict α) (k : String) :
    hasKey d k = (dget d k).isSome := by
  induction d with
  | nil => rfl
  | cons kv d ih =>
    obtain ⟨k₁, v₁⟩ := kv
    by_cases h : k₁ = k
    · simp [hasKey, dget, h]
    · simp [hasKey, dget, h, ih]

theorem dget_dset_self {α : Type} (d : Dict α) (k : String) (v : α) :
    dget (dset d k v) k = some v := by
  induction d with
  | nil => simp [dset, dget]
  | cons kv d ih =>
    obtain ⟨k₁, v₁⟩ := kv
    by_cases h : k₁ = k
    · simp [dset, h, dget]
    · simp [dset, h, dget, ih]

theorem dget_dset_ne {α : Type} (d : Dict α) (k k' : String) (v : α) (h : k ≠ k') :
    dget (dset d k v) k' = dget d k' := by
  induction d with
  | nil => simp [dset, dget, h]
  | cons kv d ih =>
    obtain ⟨k₁, v₁⟩ := kv
    by_cases h₁ : k₁ = k
    · subst h₁
      simp [dset, dget, h]
    · by_cases h₂ : k₁ = k'
      · simp [dset, dget, h₁, h₂, Ne.symm h]
      · simp [dset, dget, h₁, h₂, ih]

theorem keys_dset {α : Type} (d : Dict α) (k : String) (v : α) :
    (dset d k v).map Prod.fst
      = if hasKey d k then d.map Prod.fst else d.map Prod.fst ++ [k] := by
  induction d with
  | nil => simp [dset, hasKey]
  | cons kv d ih =>
    obtain ⟨k₁, v₁⟩ := kv
    by_cases h : k₁ = k
    · simp [dset, hasKey, h]
    · by_cases hk : hasKey d k = true
      · simp [dset, hasKey, h, hk, ih]
      · simp [dset, hasKey, h, hk, ih]

theorem dget_filter_key {α : Type} (d : Dict α) (pred : String → Bool) (k : String) :
    dget (d.filter (fun kv => pred kv.1)) k = if pred k then dget d k else none := by
  induction d with
  | nil => simp [dget]
  | cons kv d ih =>
    obtain ⟨k₁, v₁⟩ := kv
    by_cases h₁ : k₁ = k
    · subst h₁
      by_cases hp : pred k₁ = true
      · simp [List.filter, hp, dget, ih]
      · simp [List.filter, hp, dget, ih]
    · by_cases hp : pred k₁ = true
      · simp [List.filter, hp, dget, h₁, ih]
      · simp [List.filter, hp, dget, h₁, ih]

theorem dget_addAddress_ne (p results : Dict String) (k : String) (h : k ≠ "address") :
    dget (addAddress p results) k = dget results k := by
  unfold addAddress
  by_cases ht : truthy (dget p "addr:housenumber") = true
  · rw [if_pos ht, dget_dset_ne _ _ _ _ (Ne.symm h)]
  · rw [if_neg ht]

theorem kept_ne (k : String) (hk : keep_key k = true) (k' : String)
    (h' : keep_key k' = false) : k ≠ k' := by
  intro he
  rw [he, h'] at hk
  cases hk

theorem dget_processTags_namepl (p : Dict String) :
    dget (processTags p) "name:pl" = some (coalesce [dget p "name:pl", dget p "name"]) := by
  unfold processTags
  rw [dget_dset_ne _ _ _ _ (by decide), dget_addAddress_ne _ _ _ (by decide),
      dget_dset_ne _ _ _ _ (by decide), dget_dset_ne _ _ _ _ (by decide),
      dget_dset_ne _ _ _ _ (by decide), dget_dset_self]

theorem dget_processTags_nameuk (p : Dict String) :
    dget (processTags p) "name:uk"
      = some (coalesce [dget p "name:uk", dget p "name:ua", dget p "name"]) := by
  unfold processTags
  rw [dget_dset_ne _ _ _ _ (by decide), dget_addAddress_ne _ _ _ (by decide),
      dget_dset_ne _ _ _ _ (by decide), dget_dset_ne _ _ _ _ (by decide),
      dget_dset_self]

theorem dget_processTags_nameen (p : Dict String) :
    dget (processTags p) "name:en" = some (coalesce [dget p "name:en", dget p "name"]) := by
  unfold processTags
  rw [dget_dset_ne _ _ _ _ (by decide), dget_addAddress_ne _ _ _ (by decide),
      dget_dset_ne _ _ _ _ (by decide), dget_dset_self]

theorem dget_processTags_nameru (p : Dict String) :
    dget (processTags p) "name:ru" = some (coalesce [dget p "name:ru", dget p "name"]) := by
  unfold processTags
  rw [dget_dset_ne _ _ _ _ (by decide), dget_addAddress_ne _ _ _ (by decide), dget_dset_self]

theorem dget_processTags_phone (p : Dict String) :
    dget (processTags p) "phone"
      = some (concatenate_tags [dget p "phone", dget p "contact:phone"] ";") := by
  unfold processTags
  rw [dget_dset_self]

theorem dget_processTags_address (p : Dict String) :
    dget (processTags p) "address"
      = if truthy (dget p "addr:housenumber") then some (addressString p)
        else dget p "address" := by
  unfold processTags
  rw [dget_dset_ne _ _ _ _ (by decide)]
  unfold addAddress
  by_cases ht : truthy (dget p "addr:housenumber") = true
  · rw [if_pos ht, if_pos ht, dget_dset_self]
  · rw [if_neg ht, if_neg ht,
        dget_dset_ne _ _ _ _ (by decide), dget_dset_ne _ _ _ _ (by decide),
        dget_dset_ne _ _ _ _ (by decide), dget_dset_ne _ _ _ _ (by decide),
        dget_filter_key, if_pos (by decide : keep_key "address" = true)]

theorem dget_processTags_kept (p : Dict String) (k : String) (hk : keep_key k = true)
    (hover : ¬(k = "address" ∧ truthy (dget p "addr:housenumber") = true)) :
    dget (processTags p) k = dget p k := by
  unfold processTags
  rw [dget_dset_ne _ _ _ _ (Ne.symm (kept_ne k hk "phone" (by decide)))]
  have hnames : dget (dset (dset (dset (dset (p.filter (fun kv => keep_key kv.1))
      "name:pl" (coalesce [dget p "name:pl", dget p "name"]))
      "name:uk" (coalesce [dget p "name:uk", dget p "name:ua", dget p "name"]))
      "name:en" (coalesce [dget p "name:en", dget p "name"]))
      "name:ru" (coalesce [dget p "name:ru", dget p "name"])) k = dget p k := by
    rw [dget_dset_ne _ _ _ _ (Ne.symm (kept_ne k hk "name:ru" (by decide))),
        dget_dset_ne _ _ _ _ (Ne.symm (kept_ne k hk "name:en" (by decide))),
        dget_dset_ne _ _ _ _ (Ne.symm (kept_ne k hk "name:uk" (by decide))),
        dget_dset_ne _ _ _ _ (Ne.symm (kept_ne k hk "name:pl" (by decide))),
        dget_filter_key, if_pos hk]
  by_cases hka : k = "address"
  · subst hka
    have ht : ¬truthy (dget p "addr:housenumber") = true := fun h => hover ⟨rfl, h⟩
    unfold addAddress
    rw [if_neg ht, hnames]
  · rw [dget_addAddress_ne _ _ _ hka, hnames]

theorem dget_processTags_dropped (p : Dict String) (k : String) (hk : keep_key k = false)
    (h1 : k ≠ "name:pl") (h2 : k ≠ "name:uk") (h3 : k ≠ "name:en") (h4 : k ≠ "name:ru")
    (h5 : k ≠ "phone") :
    dget (processTags p) k = none := by
  have hka : k ≠ "address" := by
    intro he
    rw [he] at hk
    exact absurd hk (by decide)
  unfold processTags
  rw [dget_dset_ne _ _ _ _ (Ne.symm h5), dget_addAddress_ne _ _ _ hka,
      dget_dset_ne _ _ _ _ (Ne.symm h4), dget_dset_ne _ _ _ _ (Ne.symm h3),
      dget_dset_ne _ _ _ _ (Ne.symm h2), dget_dset_ne _ _ _ _ (Ne.symm h1),
      dget_filter_key, if_neg (by simp [hk])]

theorem kept_not_name (k : String) (hk : keep_key k = true) : strStarts k "name" = false := by
  cases hs : strStarts k "name"
  · rfl
  · unfold keep_key at hk
    rw [hs] at hk
    simp at hk

theorem hasKey_filtered_dropped (p : Dict String) (k : String) (hk : keep_key k = false) :
    hasKey (p.filter (fun kv => keep_key kv.1)) k = false := by
  rw [hasKey_eq_isSome, dget_filter_key, if_neg (by simp [hk])]
  rfl

theorem keys_processTags (p : Dict String) :
    ((processTags p).map Prod.fst).filter (fun k => strStarts k "name")
      = ["name:pl", "name:uk", "name:en", "name:ru"] := by
  have hbase : ((p.filter (fun kv => keep_key kv.1)).map Prod.fst).filter
      (fun k => strStarts k "name") = [] := by
    rw [List.filter_eq_nil_iff]
    intro k hkmem
    obtain ⟨kv, hkv, hfst⟩ := List.mem_map.mp hkmem
    have hkeep : keep_key kv.1 = true := (List.mem_filter.mp hkv).2
    rw [← hfst]
    simp [kept_not_name kv.1 hkeep]
  unfold processTags addAddress
  generalize coalesce [dget p "name:pl", dget p "name"] = c₁
  generalize coalesce [dget p "name:uk", dget p "name:ua", dget p "name"] = c₂
  generalize coalesce [dget p "name:en", dget p "name"] = c₃
  generalize coalesce [dget p "name:ru", dget p "name"] = c₄
  generalize concatenate_tags [dget p "phone", dget p "contact:phone"] ";" = cph
  generalize addressString p = cad
  have n₁ : hasKey (p.filter (fun kv => keep_key kv.1)) "name:pl" = false :=
    hasKey_filtered_dropped p _ (by decide)
  have n₂ : hasKey (dset (p.filter (fun kv => keep_key kv.1)) "name:pl" c₁)
      "name:uk" = false := by
    rw [hasKey_eq_isSome, dget_dset_ne _ _ _ _ (by decide), dget_filter_key,
        if_neg (by decide)]
    rfl
  have n₃ : hasKey (dset (dset (p.filter (fun kv => keep_key kv.1)) "name:pl" c₁)
      "name:uk" c₂) "name:en" = false := by
    rw [hasKey_eq_isSome, dget_dset_ne _ _ _ _ (by decide), dget_dset_ne _ _ _ _ (by decide),
        dget_filter_key, if_neg (by decide)]
    rfl
  have n₄ : hasKey (dset (dset (dset (p.filter (fun kv => keep_key kv.1)) "name:pl" c₁)
      "name:uk" c₂) "name:en" c₃) "name:ru" = false := by
    rw [hasKey_eq_isSome, dget_dset_ne _ _ _ _ (by decide), dget_dset_ne _ _ _ _ (by decide),
        dget_dset_ne _ _ _ _ (by decide), dget_filter_key, if_neg (by decide)]
    rfl
  have k₄ : (dset (dset (dset (dset (p.filter (fun kv => keep_key kv.1))
      "name:pl" c₁) "name:uk" c₂) "name:en" c₃) "name:ru" c₄).map Prod.fst
      = (p.filter (fun kv => keep_key kv.1)).map Prod.fst
        ++ ["name:pl", "name:uk", "name:en", "name:ru"] := by
    rw [keys_dset, if_neg (by simp [n₄]), keys_dset, if_neg (by simp [n₃]),
        keys_dset, if_neg (by simp [n₂]), keys_dset, if_neg (by simp [n₁])]
    simp
  have nph : hasKey (dset (dset (dset (dset (p.filter (fun kv => keep_key kv.1))
      "name:pl" c₁) "name:uk" c₂) "name:en" c₃) "name:ru" c₄) "phone" = false := by
    rw [hasKey_eq_isSome, dget_dset_ne _ _ _ _ (by decide), dget_dset_ne _ _ _ _ (by decide),
        dget_dset_ne _ _ _ _ (by decide), dget_dset_ne _ _ _ _ (by decide),
        dget_filter_key, if_neg (by decide)]
    rfl
  by_cases ht : truthy (dget p "addr:housenumber") = true
  · rw [if_pos ht]
    have nph2 : hasKey (dset (dset (dset (dset (dset (p.filter (fun kv => keep_key kv.1))
        "name:pl" c₁) "name:uk" c₂) "name:en" c₃) "name:ru" c₄) "address" cad)
        "phone" = false := by
      rw [hasKey_eq_isSome, dget_dset_ne _ _ _ _ (by decide)]
      rw [hasKey_eq_isSome] at nph
      cases hph : dget (dset (dset (dset (dset (p.filter (fun kv => keep_key kv.1))
          "name:pl" c₁) "name:uk" c₂) "name:en" c₃) "name:ru" c₄) "phone"
      · rfl
      · rw [hph] at nph
        cases nph
    rw [keys_dset, if_neg (by simp [nph2])]
    by_cases hA : hasKey (dset (dset (dset (dset (p.filter (fun kv => keep_key kv.1))
        "name:pl" c₁) "name:uk" c₂) "name:en" c₃) "name:ru" c₄) "address" = true
    · rw [keys_dset, if_pos hA, k₄, List.filter_append, List.filter_append, hbase]
      rfl
    · rw [keys_dset, if_neg hA, k₄, List.filter_append, List.filter_append,
          List.filter_append, hbase]
      rfl
  · rw [if_neg ht, keys_dset, if_neg (by simp [nph]), k₄, List.filter_append,
        List.filter_append, hbase]
    rfl

theorem coalesce_none_some (n : String) : coalesce [none, some n] = n := by
  by_cases hn : n = ""
  · subst hn
    rfl
  · simp [coalesce, hn]

theorem coalesce_none_none_some (n : String) : coalesce [none, none, some n] = n := by
  by_cases hn : n = ""
  · subst hn
    rfl
  · simp [coalesce, hn]

/-- Claim C1, counterexample: the feature whose tags are
`{"name:ua": "U", "name": "N"}` lacks all four language-specific name
tags (`name:pl`, `name:uk`, `name:en`, `name:ru`) and possesses a `name`
tag, yet its normalized `name:uk` field is `"U"` (taken from `name:ua`),
not the `name` value `"N"` — contradicting the claim's final sentence. -/
theorem claim1_names_counterexample :
    dget [("name:ua", "U"), ("name", "N")] "name:pl" = none
    ∧ dget [("name:ua", "U"), ("name", "N")] "name:uk" = none
    ∧ dget [("name:ua", "U"), ("name", "N")] "name:en" = none
    ∧ dget [("name:ua", "U"), ("name", "N")] "name:ru" = none
    ∧ dget [("name:ua", "U"), ("name", "N")] "name" = some "N"
    ∧ process_feature_properties [("tags", PropVal.vtags [("name:ua", "U"), ("name", "N")])]
        = some (processTags [("name:ua", "U"), ("name", "N")])
    ∧ dget (processTags [("name:ua", "U"), ("name", "N")]) "name:uk" = some "U"
    ∧ ("U" : String) ≠ "N" := by
  decide

/-- Claim C1 (amended): for every Feature whose `tags` mapping is present,
the normalized properties produced by `process_feature_properties` contain
exactly four keys beginning with `name` — `name:pl`, `name:uk`, `name:en`,
`name:ru` — each computed by the coalesce chain (first non-empty wins,
else empty string): `name:pl` from `name:pl` else `name`; `name:uk` from
`name:uk` else `name:ua` else `name`; `name:en` from `name:en` else
`name`; `name:ru` from `name:ru` else `name`.  In particular, for any
Feature lacking all four language-specific name tags *and the `name:ua`
tag* but possessing a `name` tag, all four normalized fields equal that
`name` value, and none of the four keys is ever absent. -/
theorem claim1_names (props : RawProps) (t : Dict String)
    (h : dget props "tags" = some (PropVal.vtags t)) :
    ∃ out, process_feature_properties props = some out
      ∧ (out.map Prod.fst).filter (fun k => strStarts k "name")
          = ["name:pl", "name:uk", "name:en", "name:ru"]
      ∧ dget out "name:pl" = some (coalesce [dget t "name:pl", dget t "name"])
      ∧ dget out "name:uk" = some (coalesce [dget t "name:uk", dget t "name:ua", dget t "name"])
      ∧ dget out "name:en" = some (coalesce [dget t "name:en", dget t "name"])
      ∧ dget out "name:ru" = some (coalesce [dget t "name:ru", dget t "name"])
      ∧ (∀ n, dget t "name:pl" = none → dget t "name:uk" = none → dget t "name:en" = none
          → dget t "name:ru" = none → dget t "name:ua" = none → dget t "name" = some n →
          dget out "name:pl" = some n ∧ dget out "name:uk" = some n
            ∧ dget out "name:en" = some n ∧ dget out "name:ru" = some n) := by
  refine ⟨processTags t, ?_, keys_processTags t, dget_processTags_namepl t,
    dget_processTags_nameuk t, dget_processTags_nameen t, dget_processTags_nameru t, ?_⟩
  · unfold process_feature_properties
    rw [h]
  · intro n h1 h2 h3 h4 h5 h6
    refine ⟨?_, ?_, ?_, ?_⟩
    · rw [dget_processTags_namepl t, h1, h6, coalesce_none_some]
    · rw [dget_processTags_nameuk t, h2, h5, h6, coalesce_none_none_some]
    · rw [dget_processTags_nameen t, h3, h6, coalesce_none_some]
    · rw [dget_processTags_nameru t, h4, h6, coalesce_none_some]

/-- Witness for `claim1_names` at the concrete input
`{"tags": {"name": "N"}}`. -/
theorem claim1_names_witness :
    dget ([("tags", PropVal.vtags [("name", "N")])] : RawProps) "tags"
        = some (PropVal.vtags [("name", "N")])
    ∧ (∃ out, process_feature_properties [("tags", PropVal.vtags [("name", "N")])] = some out
        ∧ (out.map Prod.fst).filter (fun k => strStarts k "name")
            = ["name:pl", "name:uk", "name:en", "name:ru"]
        ∧ dget out "name:pl"
            = some (coalesce [dget [("name", "N")] "name:pl", dget [("name", "N")] "name"])
        ∧ dget out "name:uk"
            = some (coalesce [dget [("name", "N")] "name:uk", dget [("name", "N")] "name:ua",
                dget [("name", "N")] "name"])
        ∧ dget out "name:en"
            = some (coalesce [dget [("name", "N")] "name:en", dget [("name", "N")] "name"])
        ∧ dget out "name:ru"
            = some (coalesce [dget [("name", "N")] "name:ru", dget [("name", "N")] "name"])
        ∧ (∀ n, dget [("name", "N")] "name:pl" = none → dget [("name", "N")] "name:uk" = none
            → dget [("name", "N")] "name:en" = none → dget [("name", "N")] "name:ru" = none
            → dget [("name", "N")] "name:ua" = none → dget [("name", "N")] "name" = some n →
            dget out "name:pl" = some n ∧ dget out "name:uk" = some n
              ∧ dget out "name:en" = some n ∧ dget out "name:ru" = some n)) :=
  ⟨by decide, claim1_names [("tags", PropVal.vtags [("name", "N")])] [("name", "N")] (by decide)⟩

theorem phoneRegex_of_noNL (k : String) (h : hasNL k = false) :
    phoneRegexMatch k = strEnds k "phone" := by
  unfold phoneRegexMatch
  rw [h]
  have h2 : strEnds k ("phone" ++ String.singleton (Char.ofNat 10)) = false := by
    cases hs : strEnds k ("phone" ++ String.singleton (Char.ofNat 10))
    · rfl
    · exfalso
      unfold strEnds at hs
      have hsuf : ("phone" ++ String.singleton (Char.ofNat 10)).data <:+ k.data :=
        List.isSuffixOf_iff_suffix.mp hs
      have hmem : Char.ofNat 10 ∈ k.data := hsuf.subset (by decide)
      have hany : hasNL k = true := by
        unfold hasNL
        exact List.any_eq_true.mpr ⟨Char.ofNat 10, hmem, by decide⟩
      rw [hany] at h
      cases h
  rw [h2]
  simp

theorem keep_key_patterns (k : String) (h : hasNL k = false) :
    keep_key k = false
      ↔ (strStarts k "name" = true ∨ strStarts k "source" = true
          ∨ strStarts k "ref" = true ∨ strEnds k "phone" = true
          ∨ strStarts k "addr:" = true) := by
  unfold keep_key
  rw [phoneRegex_of_noNL k h]
  simp only [Bool.not_eq_false', Bool.or_eq_true, or_assoc]

/-- Claim C2, counterexample: the key `address` matches none of the five
exclusion patterns, yet for the tags `{"address": "orig",
"addr:housenumber": "5"}` it is not copied verbatim — the synthesized
address computation overwrites it with `" 5"`. -/
theorem claim2_filter_counterexample :
    keep_key "address" = true
    ∧ dget [("address", "orig"), ("addr:housenumber", "5")] "address" = some "orig"
    ∧ dget (processTags [("address", "orig"), ("addr:housenumber", "5")]) "address"
        = some " 5"
    ∧ some (" 5" : String) ≠ some "orig" := by
  decide

/-- Claim C2 (amended): for newline-free keys the five case-sensitive
anchored patterns are exactly "starts with `name`", "starts with
`source`", "starts with `ref`", "ends with `phone`", "starts with
`addr:`" (for keys containing a newline the `^.*phone$` regex only
matches with a single trailing newline right after `phone`); a tag key
that matches no pattern is copied verbatim into the normalized
properties, except that a raw `address` tag is overwritten by the
synthesized address field when a non-empty `addr:housenumber` tag is
present; and a raw key matching some pattern never appears in the
normalized output unless it is one of the synthesized fields `name:pl`,
`name:uk`, `name:en`, `name:ru`, `phone`. -/
theorem claim2_filter (p : Dict String) (k : String) :
    (hasNL k = false →
      (keep_key k = false
        ↔ (strStarts k "name" = true ∨ strStarts k "source" = true
            ∨ strStarts k "ref" = true ∨ strEnds k "phone" = true
            ∨ strStarts k "addr:" = true)))
    ∧ (keep_key k = true → ¬(k = "address" ∧ truthy (dget p "addr:housenumber") = true) →
        dget (processTags p) k = dget p k)
    ∧ (keep_key k = false → k ≠ "name:pl" → k ≠ "name:uk" → k ≠ "name:en" → k ≠ "name:ru"
        → k ≠ "phone" → dget (processTags p) k = none) :=
  ⟨keep_key_patterns k, dget_processTags_kept p k, dget_processTags_dropped p k⟩

/-- Witness for `claim2_filter`: for the tags
`{"amenity": "pharmacy", "source": "survey"}`, the kept key `amenity` is
copied verbatim and the dropped key `source` is absent. -/
theorem claim2_filter_witness :
    keep_key "amenity" = true
    ∧ ¬("amenity" = "address"
        ∧ truthy (dget [("amenity", "pharmacy"), ("source", "survey")] "addr:housenumber")
            = true)
    ∧ dget (processTags [("amenity", "pharmacy"), ("source", "survey")]) "amenity"
        = dget [("amenity", "pharmacy"), ("source", "survey")] "amenity"
    ∧ keep_key "source" = false
    ∧ dget (processTags [("amenity", "pharmacy"), ("source", "survey")]) "source" = none :=
  ⟨by decide, by decide,
   (claim2_filter [("amenity", "pharmacy"), ("source", "survey")] "amenity").2.1
     (by decide) (by decide),
   by decide,
   (claim2_filter [("amenity", "pharmacy"), ("source", "survey")] "source").2.2
     (by decide) (by decide) (by decide) (by decide) (by decide) (by decide)⟩

/-- Claim C5, counterexample: an `addr:housenumber` tag that is present
but empty does not trigger the address computation (Python truthiness),
so no `address` field is produced although the tag is present. -/
theorem claim5_address_counterexample :
    hasKey [("addr:housenumber", "")] "addr:housenumber" = true
    ∧ dget (processTags [("addr:housenumber", "")]) "address" = none := by
  decide

/-- Claim C5 (amended): when the `addr:housenumber` tag is absent or
empty, no `address` key is added (an `address` key can only come from a
raw `address` tag); when it is present with a non-empty value `hn`, the
normalized `address` equals `coalesce(addr:city, addr:place) + " " +
(addr:street + " " if addr:street is non-empty else "") + hn`. -/
theorem claim5_address (p : Dict String) :
    (truthy (dget p "addr:housenumber") = false →
      dget (processTags p) "address" = dget p "address")
    ∧ (∀ hn, dget p "addr:housenumber" = some hn → hn ≠ "" →
      dget (processTags p) "address"
        = some (coalesce [dget p "addr:city", dget p "addr:place"] ++ " "
            ++ streetPart p ++ hn)) := by
  constructor
  · intro ht
    rw [dget_processTags_address, if_neg (by simp [ht])]
  · intro hn h1 h2
    have ht : truthy (dget p "addr:housenumber") = true := by
      rw [h1]
      simp [truthy, h2]
    rw [dget_processTags_address, if_pos ht]
    unfold addressString
    rw [h1]
    rfl

/-- Witness for `claim5_address` at the tags of the claim's example:
`addr:street="Main"`, `addr:city="X"`, `addr:housenumber="5"` yield the
address `"X Main 5"`. -/
theorem claim5_address_witness :
    dget [("addr:street", "Main"), ("addr:city", "X"), ("addr:housenumber", "5")]
        "addr:housenumber" = some "5"
    ∧ ("5" : String) ≠ ""
    ∧ dget (processTags [("addr:street", "Main"), ("addr:city", "X"),
        ("addr:housenumber", "5")]) "address"
      = some (coalesce [dget [("addr:street", "Main"), ("addr:city", "X"),
            ("addr:housenumber", "5")] "addr:city",
          dget [("addr:street", "Main"), ("addr:city", "X"),
            ("addr:housenumber", "5")] "addr:place"] ++ " "
          ++ streetPart [("addr:street", "Main"), ("addr:city", "X"),
            ("addr:housenumber", "5")] ++ "5")
    ∧ coalesce [dget [("addr:street", "Main"), ("addr:city", "X"),
          ("addr:housenumber", "5")] "addr:city",
        dget [("addr:street", "Main"), ("addr:city", "X"),
          ("addr:housenumber", "5")] "addr:place"] ++ " "
        ++ streetPart [("addr:street", "Main"), ("addr:city", "X"),
          ("addr:housenumber", "5")] ++ "5" = "X Main 5" :=
  ⟨by decide, by decide,
   (claim5_address [("addr:street", "Main"), ("addr:city", "X"),
      ("addr:housenumber", "5")]).2 "5" (by decide) (by decide),
   by decide⟩

/-- Claim C6: the normalized `phone` field always exists and equals the
semicolon-joined concatenation of the non-empty values among the `phone`
and `contact:phone` tags (in that order, empty and missing inputs
skipped), including the three concrete cases of the claim. -/
theorem claim6_phone :
    (∀ p : Dict String, dget (processTags p) "phone"
        = some (concatenate_tags [dget p "phone", dget p "contact:phone"] ";"))
    ∧ dget (processTags [("phone", "111"), ("contact:phone", "222")]) "phone"
        = some "111;222"
    ∧ dget (processTags [("contact:phone", "222")]) "phone" = some "222"
    ∧ dget (processTags []) "phone" = some "" :=
  ⟨dget_processTags_phone, by decide, by decide, by decide⟩

/-- Claim C7: a Feature's properties mapping lacking the `tags` key makes
`process_feature_properties` raise a missing-key lookup error (`none`)
rather than return any mapping; when `tags` is present with a tags
dictionary, normalization succeeds. -/
theorem claim7_missing_tags (props : RawProps) :
    (dget props "tags" = none → process_feature_properties props = none)
    ∧ (∀ t, dget props "tags" = some (PropVal.vtags t) →
        process_feature_properties props = some (processTags t)) := by
  constructor
  · intro h
    unfold process_feature_properties
    rw [h]
  · intro t h
    unfold process_feature_properties
    rw [h]

/-- Witness for `claim7_missing_tags`: a properties dictionary with only
a `type` entry fails, one with a `tags` dictionary succeeds. -/
theorem claim7_missing_tags_witness :
    dget ([("type", PropVal.vstr "node")] : RawProps) "tags" = none
    ∧ process_feature_properties [("type", PropVal.vstr "node")] = none
    ∧ dget ([("tags", PropVal.vtags [("amenity", "pharmacy")])] : RawProps) "tags"
        = some (PropVal.vtags [("amenity", "pharmacy")])
    ∧ process_feature_properties [("tags", PropVal.vtags [("amenity", "pharmacy")])]
        = some (processTags [("amenity", "pharmacy")]) :=
  ⟨by decide, (claim7_missing_tags _).1 (by decide), by decide,
   (claim7_missing_tags _).2 _ (by decide)⟩

theorem dgetD_one_iff (p : Dict String) (key a : String) (ha : ¬a = "") :
    (dgetD p key "" == a) = true ↔ dget p key = some a := by
  unfold dgetD
  cases hv : dget p key
  · simp only [Option.getD_none, beq_iff_eq]
    constructor
    · intro h
      exact absurd h.symm ha
    · intro h
      cases h
  · simp [beq_iff_eq]

theorem dgetD_two_iff (p : Dict String) (key a b : String) (ha : ¬a = "") (hb : ¬b = "") :
    (dgetD p key "" == a || dgetD p key "" == b) = true
      ↔ (dget p key = some a ∨ dget p key = some b) := by
  rw [Bool.or_eq_true, dgetD_one_iff p key a ha, dgetD_one_iff p key b hb]

/-- Claim C3: each of the nine layer predicates of the `routers` table is
exactly the membership condition stated by the spec's table, over the
normalized properties, with a missing key never matching. -/
theorem claim3_router_table (p : Dict String) :
    (routerTest "reception_points" p = true
      ↔ (dget p "social_facility:for" = some "refugee"
          ∨ dget p "social_facility:for" = some "refugees"))
    ∧ (routerTest "information_points" p = true
      ↔ (dget p "information:for" = some "refugee"
          ∨ dget p "information:for" = some "refugees"))
    ∧ (routerTest "blood_donation_points" p = true
      ↔ dget p "healthcare" = some "blood_donation")
    ∧ (routerTest "social_facilities" p = true
      ↔ (dget p "social_facility" = some "food_bank"
          ∨ dget p "social_facility" = some "soup_kitchen"))
    ∧ (routerTest "pharmacies" p = true ↔ dget p "amenity" = some "pharmacy")
    ∧ (routerTest "hospitals" p = true ↔ dget p "amenity" = some "hospital")
    ∧ (routerTest "consulates" p = true
      ↔ (dget p "office" = some "diplomatic" ∧ dget p "country" = some "UA"))
    ∧ (routerTest "train_stations" p = true ↔ dget p "building" = some "train_station")
    ∧ (routerTest "bus_stations" p = true ↔ dget p "amenity" = some "bus_station") := by
  refine ⟨?_, ?_, ?_, ?_, ?_, ?_, ?_, ?_, ?_⟩
  · show (dgetD p "social_facility:for" "" == "refugee"
        || dgetD p "social_facility:for" "" == "refugees") = true ↔ _
    exact dgetD_two_iff p _ _ _ (by decide) (by decide)
  · show (dgetD p "information:for" "" == "refugee"
        || dgetD p "information:for" "" == "refugees") = true ↔ _
    exact dgetD_two_iff p _ _ _ (by decide) (by decide)
  · show (dgetD p "healthcare" "" == "blood_donation") = true ↔ _
    exact dgetD_one_iff p _ _ (by decide)
  · show (dgetD p "social_facility" "" == "food_bank"
        || dgetD p "social_facility" "" == "soup_kitchen") = true ↔ _
    exact dgetD_two_iff p _ _ _ (by decide) (by decide)
  · show (dgetD p "amenity" "" == "pharmacy") = true ↔ _
    exact dgetD_one_iff p _ _ (by decide)
  · show (dgetD p "amenity" "" == "hospital") = true ↔ _
    exact dgetD_one_iff p _ _ (by decide)
  · show (dgetD p "office" "" == "diplomatic" && dgetD p "country" "" == "UA") = true ↔ _
    rw [Bool.and_eq_true, dgetD_one_iff p _ _ (by decide), dgetD_one_iff p _ _ (by decide)]
  · show (dgetD p "building" "" == "train_station") = true ↔ _
    exact dgetD_one_iff p _ _ (by decide)
  · show (dgetD p "amenity" "" == "bus_station") = true ↔ _
    exact dgetD_one_iff p _ _ (by decide)

theorem routers_names_nodup : (routers.map Prod.fst).Nodup := by
  decide

theorem routerStep_ne {γ : Type} (f : OutFeature γ) (p : Dict String) (res : Dict (FC γ))
    (r : String × (Dict String → Bool)) (name : String) (h : r.1 ≠ name) :
    dget (routerStep f p res r) name = dget res name := by
  unfold routerStep
  by_cases ht : r.2 p = true
  · rw [if_pos ht]
    cases hres : dget res r.1
    · rw [dget_dset_ne _ _ _ _ h]
    · rw [dget_dset_ne _ _ _ _ h]
  · rw [if_neg ht]

theorem foldl_routerStep_nmem {γ : Type} (f : OutFeature γ) (p : Dict String) :
    ∀ (rs : List (String × (Dict String → Bool))) (name : String),
      (∀ r ∈ rs, r.1 ≠ name) → ∀ res : Dict (FC γ),
      dget (rs.foldl (routerStep f p) res) name = dget res name
  | [], _, _, _ => rfl
  | r :: rs, name, h, res => by
    rw [List.foldl_cons,
        foldl_routerStep_nmem f p rs name (fun r' hr' => h r' (by simp [hr'])),
        routerStep_ne f p res r name (h r (by simp))]

theorem foldl_routerStep_mem {γ : Type} (f : OutFeature γ) (p : Dict String) :
    ∀ (rs : List (String × (Dict String → Bool))) (name : String)
      (test : Dict String → Bool) (res : Dict (FC γ)),
      (rs.map Prod.fst).Nodup → (name, test) ∈ rs →
      dget (rs.foldl (routerStep f p) res) name
        = if test p then
            (match dget res name with
             | some fc => some (FC.mk fc.fctype (fc.features ++ [f]))
             | none => some (FC.mk "FeatureCollection" [f]))
          else dget res name
  | [], name, test, res, _, hmem => absurd hmem (List.not_mem_nil _)
  | r :: rs, name, test, res, hnd, hmem => by
    rw [List.foldl_cons]
    rcases List.mem_cons.mp hmem with heq | htl
    · have hnin : ∀ r' ∈ rs, r'.1 ≠ name := by
        intro r' hr' hc
        have hhd : r.1 ∉ rs.map Prod.fst := (List.nodup_cons.mp hnd).1
        rw [← heq] at hhd
        exact hhd (List.mem_map.mpr ⟨r', hr', hc⟩)
      rw [foldl_routerStep_nmem f p rs name hnin, ← heq]
      unfold routerStep
      by_cases ht : test p = true
      · cases hres : dget res name
        · simp [hres, dget_dset_self, ht]
        · simp [hres, dget_dset_self, ht]
      · simp [ht]
    · have hr1 : r.1 ≠ name := by
        intro hc
        have h1 : name ∈ rs.map Prod.fst := List.mem_map.mpr ⟨(name, test), htl, rfl⟩
        have hhd : r.1 ∉ rs.map Prod.fst := (List.nodup_cons.mp hnd).1
        rw [hc] at hhd
        exact hhd h1
      rw [foldl_routerStep_mem f p rs name test (routerStep f p res r)
            (List.nodup_cons.mp hnd).2 htl,
          routerStep_ne f p res r name hr1]

theorem splitLoop_spec {γ : Type} :
    ∀ (fs : List (OutFeature γ)) (res : Dict (FC γ)),
      (∀ f ∈ fs, (featureProps f).isSome) →
      ∃ out, splitLoop fs res = some out
        ∧ (∀ name test, (name, test) ∈ routers →
            dget out name
              = (match dget res name with
                 | some fc => some (FC.mk fc.fctype (fc.features
                     ++ fs.filter (fun f => test ((featureProps f).getD []))))
                 | none =>
                   if (fs.filter (fun f => test ((featureProps f).getD []))).isEmpty then none
                   else some (FC.mk "FeatureCollection"
                     (fs.filter (fun f => test ((featureProps f).getD []))))))
        ∧ (∀ name, name ∉ routers.map Prod.fst → dget out name = dget res name)
  | [], res, _ => by
    refine ⟨res, rfl, ?_, fun name _ => rfl⟩
    intro name test hmem
    cases hres : dget res name
    · simp [hres]
    · simp [hres]
  | f :: fs, res, h => by
    have hf : (featureProps f).isSome := h f (by simp)
    obtain ⟨p, hp⟩ := Option.isSome_iff_exists.mp hf
    have htail : ∀ f' ∈ fs, (featureProps f').isSome := fun f' hf' => h f' (by simp [hf'])
    obtain ⟨out, hout, hchar, hother⟩ := splitLoop_spec fs (addFeature res f p) htail
    refine ⟨out, ?_, ?_, ?_⟩
    · show splitLoop (f :: fs) res = some out
      unfold splitLoop
      rw [hp]
      exact hout
    · intro name test hmem
      rw [hchar name test hmem]
      have hstep : dget (addFeature res f p) name
          = if test p then
              (match dget res name with
               | some fc => some (FC.mk fc.fctype (fc.features ++ [f]))
               | none => some (FC.mk "FeatureCollection" [f]))
            else dget res name := by
        unfold addFeature
        exact foldl_routerStep_mem f p routers name test res routers_names_nodup hmem
      rw [hstep]
      by_cases htp : test p = true
      · rw [if_pos htp]
        cases hres : dget res name
        · simp [hres, hp, htp, List.filter_cons]
        · simp [hres, hp, htp, List.filter_cons]
      · rw [if_neg htp]
        simp [hp, htp, List.filter_cons]
    · intro name hname
      rw [hother name hname]
      unfold addFeature
      exact foldl_routerStep_nmem f p routers name
        (fun r hr hc => hname (hc ▸ List.mem_map.mpr ⟨r, hr, rfl⟩)) res

/-- Claim C4: `split_geojson` returns a mapping whose keys are exactly
the router layer names with at least one matching Feature (an empty
layer is never present), and each present layer holds exactly the
Features satisfying that layer's predicate, in input order (a Feature in
several layers or in none follows directly). -/
theorem claim4_split (γ : Type) (g : FC γ)
    (h : ∀ f ∈ g.features, (featureProps f).isSome) :
    ∃ res, split_geojson g = some res
      ∧ (∀ name test, (name, test) ∈ routers →
          dget res name
            = (if (g.features.filter (fun f => test ((featureProps f).getD []))).isEmpty
               then none
               else some (FC.mk "FeatureCollection"
                 (g.features.filter (fun f => test ((featureProps f).getD []))))))
      ∧ (∀ name, name ∉ routers.map Prod.fst → dget res name = none) := by
  obtain ⟨out, hout, hchar, hother⟩ := splitLoop_spec g.features [] h
  refine ⟨out, hout, ?_, ?_⟩
  · intro name test hmem
    exact hchar name test hmem
  · intro name hname
    exact hother name hname

/-- Witness for `claim4_split` on a one-feature collection whose feature
matches both the `pharmacies` and `blood_donation_points` predicates. -/
theorem claim4_split_witness :
    (∀ f ∈ (FC.mk "FeatureCollection"
        [[("type", OutVal.vstr "Feature"),
          ("properties", OutVal.vprops [("amenity", "pharmacy"),
            ("healthcare", "blood_donation")]),
          ("geometry", OutVal.vgeom (FeatVal.vstr "pt"))]] : FC Unit).features,
      (featureProps f).isSome)
    ∧ (∃ res, split_geojson (FC.mk "FeatureCollection"
          [[("type", OutVal.vstr "Feature"),
            ("properties", OutVal.vprops [("amenity", "pharmacy"),
              ("healthcare", "blood_donation")]),
            ("geometry", OutVal.vgeom (FeatVal.vstr "pt"))]] : FC Unit) = some res
        ∧ (∀ name test, (name, test) ∈ routers →
            dget res name
              = (if ((FC.mk "FeatureCollection"
                    [[("type", OutVal.vstr "Feature"),
                      ("properties", OutVal.vprops [("amenity", "pharmacy"),
                        ("healthcare", "blood_donation")]),
                      ("geometry", OutVal.vgeom (FeatVal.vstr "pt"))]] : FC Unit).features.filter
                      (fun f => test ((featureProps f).getD []))).isEmpty
                 then none
                 else some (FC.mk "FeatureCollection"
                   ((FC.mk "FeatureCollection"
                    [[("type", OutVal.vstr "Feature"),
                      ("properties", OutVal.vprops [("amenity", "pharmacy"),
                        ("healthcare", "blood_donation")]),
                      ("geometry", OutVal.vgeom (FeatVal.vstr "pt"))]] : FC Unit).features.filter
                      (fun f => test ((featureProps f).getD []))))))
        ∧ (∀ name, name ∉ routers.map Prod.fst → dget res name = none)) :=
  ⟨by decide,
   claim4_split Unit (FC.mk "FeatureCollection"
      [[("type", OutVal.vstr "Feature"),
        ("properties", OutVal.vprops [("amenity", "pharmacy"),
          ("healthcare", "blood_donation")]),
        ("geometry", OutVal.vgeom (FeatVal.vstr "pt"))]]) (by decide)⟩

theorem optionMapAll_spec {α β : Type} (φ : α → Option β) :
    ∀ l : List α, (∀ a ∈ l, (φ a).isSome) →
      ∃ out, optionMapAll φ l = some out ∧ out.length = l.length
        ∧ ∀ i (h₁ : i < l.length) (h₂ : i < out.length),
            φ (l.get ⟨i, h₁⟩) = some (out.get ⟨i, h₂⟩)
  | [], _ => ⟨[], rfl, rfl, fun i h₁ _ => absurd h₁ (Nat.not_lt_zero i)⟩
  | a :: l, h => by
    obtain ⟨b, hb⟩ := Option.isSome_iff_exists.mp (h a (by simp))
    obtain ⟨out, hout, hlen, hidx⟩ :=
      optionMapAll_spec φ l (fun a' ha' => h a' (by simp [ha']))
    refine ⟨b :: out, ?_, by simp [hlen], ?_⟩
    · unfold optionMapAll
      rw [hb, hout]
    · intro i h₁ h₂
      cases i with
      | zero => simpa using hb
      | succ n => exact hidx n (by simpa using h₁) (by simpa using h₂)

theorem processFeature_eq {γ : Type} (f : RawFeature γ) (pr : RawProps) (t : Dict String)
    (g : FeatVal γ) (h1 : dget f "properties" = some (FeatVal.vprops pr))
    (h2 : dget pr "tags" = some (PropVal.vtags t)) (h3 : dget f "geometry" = some g) :
    processFeature f = some [("type", OutVal.vstr "Feature"),
      ("properties", OutVal.vprops (processTags t)), ("geometry", OutVal.vgeom g)] := by
  unfold processFeature process_feature_properties
  simp only [h1, h2, h3]

/-- Claim C10: on a FeatureCollection whose Features each carry a
properties dictionary with a `tags` mapping (and, being Features, a
geometry), `process_geojson` returns one output Feature per input
Feature, in order, each carrying exactly the keys `type`, `properties`,
`geometry` (any other input key, such as an id, is dropped) and the
geometry value passed through unmodified from the same-index input. -/
theorem claim10_process_geojson (γ : Type) (data : RawCollection γ)
    (h : ∀ f ∈ data.features,
      (∃ pr t, dget f "properties" = some (FeatVal.vprops pr)
        ∧ dget pr "tags" = some (PropVal.vtags t))
      ∧ (∃ g, dget f "geometry" = some g)) :
    ∃ out, process_geojson data = some out
      ∧ out.fctype = "FeatureCollection"
      ∧ out.features.length = data.features.length
      ∧ ∀ i (h₁ : i < data.features.length) (h₂ : i < out.features.length),
          (out.features.get ⟨i, h₂⟩).map Prod.fst = ["type", "properties", "geometry"]
          ∧ dget (out.features.get ⟨i, h₂⟩) "geometry"
              = (dget (data.features.get ⟨i, h₁⟩) "geometry").map OutVal.vgeom := by
  have hall : ∀ f ∈ data.features, (processFeature f).isSome := by
    intro f hf
    obtain ⟨⟨pr, t, h1, h2⟩, ⟨g, h3⟩⟩ := h f hf
    rw [processFeature_eq f pr t g h1 h2 h3]
    rfl
  obtain ⟨outl, houtl, hlen, hidx⟩ := optionMapAll_spec processFeature data.features hall
  refine ⟨FC.mk "FeatureCollection" outl, ?_, rfl, hlen, ?_⟩
  · unfold process_geojson
    rw [houtl]
  · intro i h₁ h₂
    obtain ⟨⟨pr, t, h1, h2⟩, ⟨g, h3⟩⟩ :=
      h (data.features.get ⟨i, h₁⟩) (data.features.get_mem i h₁)
    have hsome := hidx i h₁ h₂
    rw [processFeature_eq _ pr t g h1 h2 h3] at hsome
    have hget : outl.get ⟨i, h₂⟩ = [("type", OutVal.vstr "Feature"),
        ("properties", OutVal.vprops (processTags t)), ("geometry", OutVal.vgeom g)] :=
      (Option.some.inj hsome).symm
    constructor
    · show (outl.get ⟨i, h₂⟩).map Prod.fst = _
      rw [hget]
      rfl
    · show dget (outl.get ⟨i, h₂⟩) "geometry" = _
      rw [hget, h3]
      rfl

/-- Witness for `claim10_process_geojson`: a one-feature collection whose
feature carries an extra `id` key that is dropped from the output. -/
theorem claim10_process_geojson_witness :
    (∀ f ∈ (RawCollection.mk
        [[("type", FeatVal.vstr "Feature"), ("id", FeatVal.vstr "7"),
          ("properties", FeatVal.vprops [("tags", PropVal.vtags [("amenity", "pharmacy")])]),
          ("geometry", FeatVal.vgeom ())]] : RawCollection Unit).features,
      (∃ pr t, dget f "properties" = some (FeatVal.vprops pr)
        ∧ dget pr "tags" = some (PropVal.vtags t))
      ∧ (∃ g, dget f "geometry" = some g))
    ∧ (∃ out, process_geojson (RawCollection.mk
          [[("type", FeatVal.vstr "Feature"), ("id", FeatVal.vstr "7"),
            ("properties", FeatVal.vprops [("tags", PropVal.vtags [("amenity", "pharmacy")])]),
            ("geometry", FeatVal.vgeom ())]] : RawCollection Unit) = some out
        ∧ out.fctype = "FeatureCollection"
        ∧ out.features.length = (RawCollection.mk
            [[("type", FeatVal.vstr "Feature"), ("id", FeatVal.vstr "7"),
              ("properties", FeatVal.vprops [("tags", PropVal.vtags [("amenity", "pharmacy")])]),
              ("geometry", FeatVal.vgeom ())]] : RawCollection Unit).features.length
        ∧ ∀ i (h₁ : i < (RawCollection.mk
              [[("type", FeatVal.vstr "Feature"), ("id", FeatVal.vstr "7"),
                ("properties", FeatVal.vprops [("tags", PropVal.vtags [("amenity", "pharmacy")])]),
                ("geometry", FeatVal.vgeom ())]] : RawCollection Unit).features.length)
            (h₂ : i < out.features.length),
            (out.features.get ⟨i, h₂⟩).map Prod.fst = ["type", "properties", "geometry"]
            ∧ dget (out.features.get ⟨i, h₂⟩) "geometry"
                = (dget ((RawCollection.mk
                    [[("type", FeatVal.vstr "Feature"), ("id", FeatVal.vstr "7"),
                      ("properties", FeatVal.vprops [("tags", PropVal.vtags
                        [("amenity", "pharmacy")])]),
                      ("geometry", FeatVal.vgeom ())]] : RawCollection Unit).features.get
                    ⟨i, h₁⟩) "geometry").map OutVal.vgeom) :=
  ⟨by
    intro f hf
    rw [List.mem_singleton] at hf
    subst hf
    exact ⟨⟨[("tags", PropVal.vtags [("amenity", "pharmacy")])], [("amenity", "pharmacy")],
      rfl, rfl⟩, ⟨FeatVal.vgeom (), rfl⟩⟩,
   claim10_process_geojson Unit (RawCollection.mk
      [[("type", FeatVal.vstr "Feature"), ("id", FeatVal.vstr "7"),
        ("properties", FeatVal.vprops [("tags", PropVal.vtags [("amenity", "pharmacy")])]),
        ("geometry", FeatVal.vgeom ())]])
     (by
      intro f hf
      rw [List.mem_singleton] at hf
      subst hf
      exact ⟨⟨[("tags", PropVal.vtags [("amenity", "pharmacy")])], [("amenity", "pharmacy")],
        rfl, rfl⟩, ⟨FeatVal.vgeom (), rfl⟩⟩)⟩

/-- Claim C8: with an output path that is not a directory, the entry
point logs an error and exits with a non-zero status, performing no
network request and no file write; with a valid directory, the
validation gate does not abort and the run proceeds into `main`. -/
theorem claim8_entry_gate (pathIsDir : Bool) (outputDir : String) (layerNames : List String) :
    (pathIsDir = false →
      (∃ c, (entry_main pathIsDir outputDir layerNames).2 = some c ∧ c ≠ 0)
      ∧ (∃ m, Effect.logError m ∈ (entry_main pathIsDir outputDir layerNames).1)
      ∧ (∀ e ∈ (entry_main pathIsDir outputDir layerNames).1,
          (∀ u, e ≠ Effect.netPost u) ∧ (∀ q, e ≠ Effect.fileWrite q)))
    ∧ (pathIsDir = true →
      (entry_main pathIsDir outputDir layerNames).2 = none
      ∧ (entry_main pathIsDir outputDir layerNames).1 = main_effects outputDir layerNames) := by
  constructor
  · intro hdir
    subst hdir
    refine ⟨⟨1, rfl, by decide⟩, ⟨"Given path: \"" ++ outputDir ++ "\" is not a directory.",
      by simp [entry_main]⟩, ?_⟩
    intro e he
    simp only [entry_main, Bool.false_eq_true, if_false, List.mem_singleton] at he
    subst he
    exact ⟨fun u h => (by cases h), fun q h => (by cases h)⟩
  · intro hdir
    subst hdir
    exact ⟨rfl, rfl⟩

/-- Witness for `claim8_entry_gate` at both gate outcomes for the
concrete path `/data` and layer list `["pharmacies"]`. -/
theorem claim8_entry_gate_witness :
    (false = false
      ∧ (∃ c, (entry_main false "/data" ["pharmacies"]).2 = some c ∧ c ≠ 0)
      ∧ (∀ e ∈ (entry_main false "/data" ["pharmacies"]).1,
          (∀ u, e ≠ Effect.netPost u) ∧ (∀ q, e ≠ Effect.fileWrite q)))
    ∧ (true = true
      ∧ (entry_main true "/data" ["pharmacies"]).2 = none
      ∧ (entry_main true "/data" ["pharmacies"]).1 = main_effects "/data" ["pharmacies"]) :=
  ⟨⟨rfl, ((claim8_entry_gate false "/data" ["pharmacies"]).1 rfl).1,
    ((claim8_entry_gate false "/data" ["pharmacies"]).1 rfl).2.2⟩,
   ⟨rfl, ((claim8_entry_gate true "/data" ["pharmacies"]).2 rfl).1,
    ((claim8_entry_gate true "/data" ["pharmacies"]).2 rfl).2⟩⟩

theorem wsChar_hexDigit (n : Nat) : wsChar (hexDigit n) = false := by
  unfold hexDigit
  have h : n % 16 < 16 := Nat.mod_lt n (by omega)
  generalize hm : n % 16 = m at h
  interval_cases m <;> decide

theorem wsFreeStr_append (a b : String) :
    wsFreeStr (a ++ b) = (wsFreeStr a && wsFreeStr b) := by
  unfold wsFreeStr
  rw [String.data_append, List.all_append]

theorem wsFreeStr_hex4 (n : Nat) : wsFreeStr (hex4 n) = true := by
  unfold hex4 wsFreeStr
  simp [wsChar_hexDigit]

theorem wsFreeStr_encodeUni (n : Nat) : wsFreeStr (encodeUni n) = true := by
  unfold encodeUni
  split
  · rw [wsFreeStr_append, wsFreeStr_hex4]
    decide
  · rw [wsFreeStr_append, wsFreeStr_append, wsFreeStr_append, wsFreeStr_hex4, wsFreeStr_hex4]
    decide

theorem wsFreeStr_escapeChar (c : Char) (h : wsChar c = false) :
    wsFreeStr (escapeChar c) = true := by
  unfold escapeChar
  repeat' split
  · decide
  · decide
  · decide
  · decide
  · decide
  · decide
  · decide
  · show wsFreeStr (String.singleton c) = true
    unfold wsFreeStr String.singleton
    simp [h]
  · exact wsFreeStr_encodeUni c.toNat

theorem wsFreeStr_concatAll :
    ∀ l : List String, (∀ s ∈ l, wsFreeStr s = true) → wsFreeStr (concatAll l) = true
  | [], _ => by decide
  | s :: rest, h => by
    show wsFreeStr (s ++ concatAll rest) = true
    rw [wsFreeStr_append, h s (by simp),
        wsFreeStr_concatAll rest (fun x hx => h x (by simp [hx]))]
    rfl

theorem wsFreeStr_escapeString (s : String) (h : wsFreeStr s = true) :
    wsFreeStr (escapeString s) = true := by
  unfold escapeString
  apply wsFreeStr_concatAll
  intro x hx
  obtain ⟨c, hc, hcx⟩ := List.mem_map.mp hx
  have hcw : wsChar c = false := by
    unfold wsFreeStr at h
    have := List.all_eq_true.mp h c hc
    simpa using this
  rw [← hcx]
  exact wsFreeStr_escapeChar c hcw

theorem wsFreeStr_renderStr (s : String) (h : wsFreeStr s = true) :
    wsFreeStr (renderStr s) = true := by
  unfold renderStr
  rw [wsFreeStr_append, wsFreeStr_append, wsFreeStr_escapeString s h]
  decide

theorem wsFreeStr_joinSep (sep : String) (hsep : wsFreeStr sep = true) :
    ∀ l : List String, (∀ s ∈ l, wsFreeStr s = true) → wsFreeStr (joinSep sep l) = true
  | [], _ => rfl
  | [s], h => h s (by simp)
  | s :: s' :: rest, h => by
    show wsFreeStr (s ++ sep ++ joinSep sep (s' :: rest)) = true
    rw [wsFreeStr_append, wsFreeStr_append, h s (by simp), hsep,
        wsFreeStr_joinSep sep hsep (s' :: rest) (fun x hx => h x (by simp [hx]))]
    rfl

mutual
theorem dumpVal_isSome : ∀ v : PyVal, (dumpVal v).isSome = !hasNFVal v
  | PyVal.pstr _ => rfl
  | PyVal.pnum n => by cases n <;> rfl
  | PyVal.pbool _ => rfl
  | PyVal.pnull => rfl
  | PyVal.parr xs => by
    have h := dumpList_isSome xs
    unfold dumpVal hasNFVal
    cases hxs : dumpList xs <;> rw [hxs] at h <;> simp at h <;> simp [h]
  | PyVal.pobj xs => by
    have h := dumpObj_isSome xs
    unfold dumpVal hasNFVal
    cases hxs : dumpObj xs <;> rw [hxs] at h <;> simp at h <;> simp [h]
theorem dumpList_isSome : ∀ xs : PyList, (dumpList xs).isSome = !hasNFList xs
  | PyList.nil => rfl
  | PyList.cons v tl => by
    have h1 := dumpVal_isSome v
    have h2 := dumpList_isSome tl
    unfold dumpList hasNFList
    cases hv : dumpVal v <;> cases htl : dumpList tl <;>
      rw [hv] at h1 <;> rw [htl] at h2 <;> simp at h1 h2 <;> simp [h1, h2]
theorem dumpObj_isSome : ∀ xs : PyObj, (dumpObj xs).isSome = !hasNFObj xs
  | PyObj.nil => rfl
  | PyObj.cons k v tl => by
    have h1 := dumpVal_isSome v
    have h2 := dumpObj_isSome tl
    unfold dumpObj hasNFObj
    cases hv : dumpVal v <;> cases htl : dumpObj tl <;>
      rw [hv] at h1 <;> rw [htl] at h2 <;> simp at h1 h2 <;> simp [h1, h2]
end

mutual
theorem dumpVal_wsFree : ∀ v : PyVal, wsFreeVal v = true →
    ∀ s, dumpVal v = some s → wsFreeStr s = true
  | PyVal.pstr t, h, s, hs => by
    have : renderStr t = s := Option.some.inj hs
    rw [← this]
    exact wsFreeStr_renderStr t h
  | PyVal.pnum n, h, s, hs => by
    cases n with
    | finite txt =>
      have : txt = s := Option.some.inj hs
      rw [← this]
      exact h
    | nan => cases hs
    | inf => cases hs
    | ninf => cases hs
  | PyVal.pbool b, _, s, hs => by
    cases b
    · rw [← Option.some.inj hs]
      decide
    · rw [← Option.some.inj hs]
      decide
  | PyVal.pnull, _, s, hs => by
    rw [← Option.some.inj hs]
    decide
  | PyVal.parr xs, h, s, hs => by
    unfold dumpVal at hs
    cases hxs : dumpList xs with
    | none => rw [hxs] at hs; cases hs
    | some ss =>
      rw [hxs] at hs
      rw [← Option.some.inj hs, wsFreeStr_append, wsFreeStr_append]
      have hss : ∀ t ∈ ss, wsFreeStr t = true := dumpList_wsFree xs h ss hxs
      rw [wsFreeStr_joinSep "," (by decide) ss hss]
      decide
  | PyVal.pobj xs, h, s, hs => by
    unfold dumpVal at hs
    cases hxs : dumpObj xs with
    | none => rw [hxs] at hs; cases hs
    | some ss =>
      rw [hxs] at hs
      rw [← Option.some.inj hs, wsFreeStr_append, wsFreeStr_append]
      have hss : ∀ t ∈ ss, wsFreeStr t = true := dumpObj_wsFree xs h ss hxs
      rw [wsFreeStr_joinSep "," (by decide) ss hss]
      decide
theorem dumpList_wsFree : ∀ xs : PyList, wsFreeList xs = true →
    ∀ ss, dumpList xs = some ss → ∀ t ∈ ss, wsFreeStr t = true
  | PyList.nil, _, ss, hss => by
    rw [← Option.some.inj hss]
    intro t ht
    cases ht
  | PyList.cons v tl, h, ss, hss => by
    unfold dumpList at hss
    unfold wsFreeList at h
    cases hv : dumpVal v with
    | none => rw [hv] at hss; cases hss
    | some s0 =>
      cases htl : dumpList tl with
      | none => rw [hv, htl] at hss; cases hss
      | some ss0 =>
        rw [hv, htl] at hss
        rw [← Option.some.inj hss]
        intro t ht
        rcases List.mem_cons.mp ht with heq | hmem
        · rw [heq]
          exact dumpVal_wsFree v (Bool.and_eq_true_iff.mp h).1 s0 hv
        · exact dumpList_wsFree tl (Bool.and_eq_true_iff.mp h).2 ss0 htl t hmem
theorem dumpObj_wsFree : ∀ xs : PyObj, wsFreeObj xs = true →
    ∀ ss, dumpObj xs = some ss → ∀ t ∈ ss, wsFreeStr t = true
  | PyObj.nil, _, ss, hss => by
    rw [← Option.some.inj hss]
    intro t ht
    cases ht
  | PyObj.cons k v tl, h, ss, hss => by
    unfold dumpObj at hss
    unfold wsFreeObj at h
    cases hv : dumpVal v with
    | none => rw [hv] at hss; cases hss
    | some s0 =>
      cases htl : dumpObj tl with
      | none => rw [hv, htl] at hss; cases hss
      | some ss0 =>
        rw [hv, htl] at hss
        rw [← Option.some.inj hss]
        intro t ht
        rcases List.mem_cons.mp ht with heq | hmem
        · rw [heq, wsFreeStr_append, wsFreeStr_append]
          have hk : wsFreeStr k = true :=
            (Bool.and_eq_true_iff.mp (Bool.and_eq_true_iff.mp h).1).1
          have hv' : wsFreeVal v = true :=
            (Bool.and_eq_true_iff.mp (Bool.and_eq_true_iff.mp h).1).2
          rw [wsFreeStr_renderStr k hk, dumpVal_wsFree v hv' s0 hv]
          decide
        · exact dumpObj_wsFree tl (Bool.and_eq_true_iff.mp h).2 ss0 htl t hmem
end

/-- Claim C9: `save_json` (json.dump with `allow_nan=False` and compact
separators) fails with an error for every value containing a NaN or
Infinity anywhere, never substituting a token; for every value free of
non-finite numbers it writes the compact serialization (adding no
whitespace beyond the input strings' own characters); and serialization
is deterministic given identical input. -/
theorem claim9_save_json (v : PyVal) :
    (hasNFVal v = true → save_json v = none)
    ∧ (hasNFVal v = false → ∃ s, save_json v = some s
        ∧ (wsFreeVal v = true → wsFreeStr s = true))
    ∧ (∀ w, w = v → save_json w = save_json v) := by
  refine ⟨?_, ?_, fun w hw => by rw [hw]⟩
  · intro h
    have hi := dumpVal_isSome v
    rw [h] at hi
    cases hd : dumpVal v
    · unfold save_json
      exact hd
    · rw [hd] at hi
      cases hi
  · intro h
    have hi := dumpVal_isSome v
    rw [h] at hi
    obtain ⟨s, hs⟩ := Option.isSome_iff_exists.mp (by rw [hi]; rfl)
    exact ⟨s, hs, fun hws => dumpVal_wsFree v hws s hs⟩

/-- Witness for `claim9_save_json`: a dictionary containing NaN fails;
the dictionary `{"k": "x", "n": 1.5}` serializes to the compact text. -/
theorem claim9_save_json_witness :
    hasNFVal (PyVal.pobj (PyObj.cons "a" (PyVal.pnum PyNum.nan) PyObj.nil)) = true
    ∧ save_json (PyVal.pobj (PyObj.cons "a" (PyVal.pnum PyNum.nan) PyObj.nil)) = none
    ∧ hasNFVal (PyVal.pobj (PyObj.cons "k" (PyVal.pstr "x")
        (PyObj.cons "n" (PyVal.pnum (PyNum.finite "1.5")) PyObj.nil))) = false
    ∧ (∃ s, save_json (PyVal.pobj (PyObj.cons "k" (PyVal.pstr "x")
        (PyObj.cons "n" (PyVal.pnum (PyNum.finite "1.5")) PyObj.nil))) = some s
        ∧ (wsFreeVal (PyVal.pobj (PyObj.cons "k" (PyVal.pstr "x")
            (PyObj.cons "n" (PyVal.pnum (PyNum.finite "1.5")) PyObj.nil))) = true
          → wsFreeStr s = true))
    ∧ save_json (PyVal.pobj (PyObj.cons "k" (PyVal.pstr "x")
        (PyObj.cons "n" (PyVal.pnum (PyNum.finite "1.5")) PyObj.nil)))
      = some "\x7b\"k\":\"x\",\"n\":1.5\x7d" :=
  ⟨rfl,
   (claim9_save_json (PyVal.pobj (PyObj.cons "a" (PyVal.pnum PyNum.nan) PyObj.nil))).1 rfl,
   rfl,
   (claim9_save_json (PyVal.pobj (PyObj.cons "k" (PyVal.pstr "x")
      (PyObj.cons "n" (PyVal.pnum (PyNum.finite "1.5")) PyObj.nil)))).2.1 rfl,
   rfl⟩
